import Mathlib

/-!
Shallow embedding of `src/skmultilearn/cluster/graphtool.py`:
the `StochasticBlockModel` configuration/state holder and the
`GraphToolCooccurenceClusterer`, together with theorems checking the
natural-language specification against this embedding.

External collaborators (the graph-tool solver and the graph-builder) are
black boxes: they are passed in as function arguments returning
`Except String _`, so that an error raised inside a collaborator is an
explicit `.error` value that the embedded code can only propagate.
-/

/-- A Python value as it matters for the truthiness test `if self.weight_model:`:
`None`, a string (falsy iff empty), or an integer (falsy iff zero). -/
inductive PyVal where
  | none
  | str (s : String)
  | int (n : Int)
deriving DecidableEq, Repr

/-- Python truthiness of a `PyVal`. -/
def PyVal.truthy : PyVal → Bool
  | .none => false
  | .str s => s ≠ ""
  | .int n => n ≠ 0

/-- The two graph-tool solver entry points selected by `StochasticBlockModel.model`. -/
inductive EntryPoint where
  | minimize_nested_blockmodel_dl
  | minimize_blockmodel_dl
deriving DecidableEq, Repr

/-- The graph-tool `Graph` object, as far as this module uses it:
directedness, vertex count, and the ordered list of added edges
(each edge is the pair of endpoint vertex indices; the edge's index in
this list is its identity for edge property maps). -/
structure GtGraph where
  directed : Bool
  num_vertices : Nat
  edges : List (Nat × Nat)
deriving DecidableEq, Repr

/-- Source `g.add_vertex(n)`: adds `n` vertices. -/
def GtGraph.add_vertex (g : GtGraph) (n : Nat) : GtGraph :=
  { g with num_vertices := g.num_vertices + n }

/-- Source `g.add_edge(a, b)`: appends the edge and returns it (as its index). -/
def GtGraph.add_edge (g : GtGraph) (a b : Nat) : GtGraph × Nat :=
  ({ g with edges := g.edges ++ [(a, b)] }, g.edges.length)

/-- An edge property map of `double`s: assignments `edge index ↦ weight`,
most recent assignment first; unset edges read as the default `0`. -/
abbrev PropMap : Type := List (Nat × Rat)

/-- Assignment `weights[e] = w` on an edge property map. -/
def PropMap.set (m : PropMap) (e : Nat) (w : Rat) : PropMap :=
  (e, w) :: m

/-- Lookup `weights[e]` (graph-tool `double` maps default to `0`). -/
def PropMap.get (m : PropMap) (e : Nat) : Rat :=
  match List.find? (fun p => p.1 == e) m with
  | some p => p.2
  | Option.none => 0

/-- The `state_args` dict passed to the solver in the weighted branch:
`dict(recs=[weights], rec_types=[self.weight_model])`. -/
structure StateArgs where
  recs : List PropMap
  rec_types : List PyVal
deriving DecidableEq

/-- One invocation of a solver entry point, recording the entry point chosen
by `model()` and every argument `fit` passes. -/
structure SolverCall where
  entry : EntryPoint
  graph : GtGraph
  deg_corr : Bool
  overlap : Bool
  state_args : Option StateArgs
deriving DecidableEq

/-- One block-model state level as the solver returns it: the entropy value,
the block count `get_B()`, the per-vertex block membership `get_blocks()`,
and the `get_overlap_blocks()` tuple (per-vertex multi-block membership
vector first, auxiliary edge vectors second). -/
structure BlockState where
  entropyVal : Rat
  B : Nat
  blocks : List Nat
  overlap_blocks : List (List Nat) × List (List Nat)
deriving DecidableEq, Repr

/-- The opaque fitted state returned by the solver: a single flat state, or a
nested hierarchy of levels with the finest level at index 0. -/
inductive FittedState where
  | flat (s : BlockState)
  | nested (levels : List BlockState)
deriving DecidableEq, Repr

/-- Method `state.entropy()` on a fitted state (a nested hierarchy reports the sum
over its levels). -/
def FittedState.entropy : FittedState → Rat
  | .flat s => s.entropyVal
  | .nested levels => (levels.map BlockState.entropyVal).sum

/-- Class `StochasticBlockModel`: the four configuration fields set by `__init__`
and the fitted-state field `_state` (`None` until the first `fit`). -/
structure StochasticBlockModel where
  nested : Bool
  use_degree_correlation : Bool
  allow_overlap : Bool
  weight_model : PyVal
  _state : Option FittedState

/-- Method `StochasticBlockModel.__init__`: stores the four configuration arguments
and sets `self._state = None`. -/
def StochasticBlockModel.init (nested use_degree_correlation allow_overlap : Bool)
    (weight_model : PyVal) : StochasticBlockModel :=
  { nested := nested
    use_degree_correlation := use_degree_correlation
    allow_overlap := allow_overlap
    weight_model := weight_model
    _state := Option.none }

/-- Method `StochasticBlockModel.model`: the solver entry point, nested SBM or not. -/
def StochasticBlockModel.model (m : StochasticBlockModel) : EntryPoint :=
  if m.nested then
    EntryPoint.minimize_nested_blockmodel_dl
  else
    EntryPoint.minimize_blockmodel_dl

/-- The solver call `StochasticBlockModel.fit` makes for a graph and a weight
map: `if self.weight_model:` selects the branch that adds
`state_args=dict(recs=[weights], rec_types=[self.weight_model])`. -/
def StochasticBlockModel.fitCall (m : StochasticBlockModel) (graph : GtGraph)
    (weights : PropMap) : SolverCall :=
  if m.weight_model.truthy then
    { entry := m.model
      graph := graph
      deg_corr := m.use_degree_correlation
      overlap := m.allow_overlap
      state_args := some { recs := [weights], rec_types := [m.weight_model] } }
  else
    { entry := m.model
      graph := graph
      deg_corr := m.use_degree_correlation
      overlap := m.allow_overlap
      state_args := Option.none }

/-- Method `StochasticBlockModel.fit`: invokes the selected solver entry point on the
assembled arguments; on success stores the returned state in `self._state`
and returns `self`.  A solver error propagates and `self._state` keeps its
previous value (the assignment never happens). -/
def StochasticBlockModel.fit (m : StochasticBlockModel)
    (solver : SolverCall → Except String FittedState) (graph : GtGraph)
    (weights : PropMap) : Except String StochasticBlockModel :=
  (solver (m.fitCall graph weights)).map fun st => { m with _state := some st }

/-- Method `StochasticBlockModel.entropy`: `self._state.entropy()`; fails
(attribute access on `None`) when the model was never fitted. -/
def StochasticBlockModel.entropy (m : StochasticBlockModel) : Option Rat :=
  m._state.map FittedState.entropy

/-- Modelled from the spec: `_membership_to_list_of_communities` lives in
`skmultilearn/cluster/helpers.py`, which is not among the provided sources.
The spec's algorithmic note describes it as an inverse-index construction:
initialize `B` empty groups, then for each vertex index append the vertex
index to the group of its assigned block id. -/
def _membership_to_list_of_communities (membership_vector : List Nat)
    (number_of_communities : Nat) : List (List Nat) :=
  (List.range number_of_communities).map fun b =>
    (List.range membership_vector.length).filter fun v =>
      membership_vector.getD v 0 == b

/-- Modelled from the spec: `_overlapping_membership_to_list_of_communities`
lives in `skmultilearn/cluster/helpers.py`, which is not among the provided
sources.  Per the spec's algorithmic note a vertex with `k` assigned blocks
appears in `k` groups: for each block id `b`, group `b` collects the vertex
indices whose membership lists contain `b`. -/
def _overlapping_membership_to_list_of_communities
    (membership_vector : List (List Nat)) (number_of_communities : Nat) :
    List (List Nat) :=
  (List.range number_of_communities).map fun b =>
    (List.range membership_vector.length).filter fun v =>
      (membership_vector.getD v []).contains b

/-- The `lowest_level` computed at the top of `communities()`:
`self._state.get_levels()[0]` when nested, else `self._state` itself.
The nested accessor fails on a flat state (no `get_levels` attribute) and on
an empty hierarchy; reading a nested hierarchy as a single flat level fails
likewise, per the spec's tagged-variant design note. -/
def FittedState.lowestLevel (st : FittedState) (nested : Bool) :
    Option BlockState :=
  if nested then
    match st with
    | .nested levels => levels[0]?
    | .flat _ => Option.none
  else
    match st with
    | .flat s => some s
    | .nested _ => Option.none

/-- Method `StochasticBlockModel.communities`: reads the finest level (nested) or the
single flat state, takes `B = lowest_level.get_B()`, reads the membership
vector (`get_overlap_blocks()[0]` if overlap is allowed, `get_blocks()`
otherwise) and converts it to a list of communities with the matching helper.
`Option.none` is a raised error: unfitted model, or a state shape that does
not match the `nested` flag. -/
def StochasticBlockModel.communities (m : StochasticBlockModel) :
    Option (List (List Nat)) :=
  match m._state with
  | Option.none => Option.none
  | some st =>
    match st.lowestLevel m.nested with
    | Option.none => Option.none
    | some lowest_level =>
      let number_of_communities := lowest_level.B
      if m.allow_overlap then
        some (_overlapping_membership_to_list_of_communities
          lowest_level.overlap_blocks.1 number_of_communities)
      else
        some (_membership_to_list_of_communities
          lowest_level.blocks number_of_communities)

/-- The mapping returned by the graph-builder's `transform(y)`: one entry per
co-occurring label pair, `((label_index, label_index), numeric weight)`, in
dict iteration order. -/
abbrev EdgeMap : Type := List ((Nat × Nat) × Rat)

/-- The label matrix as this module reads it: only `y.shape` is accessed
directly (the graph-builder collaborator interprets the contents). -/
structure LabelMatrix where
  n_samples : Nat
  n_labels : Nat
deriving DecidableEq, Repr

/-- Class `GraphToolCooccurenceClusterer`: the two collaborators stored by
`__init__` plus the mutable instance attributes assigned by
`build_graph_instance` and `fit_predict` (absent before first assignment). -/
structure GraphToolCooccurenceClusterer where
  graph_builder : LabelMatrix → Except String EdgeMap
  model : StochasticBlockModel
  label_count : Option Nat := Option.none
  weights : Option PropMap := Option.none
  coocurence_graph : Option GtGraph := Option.none
  label_sets : Option (List (List Nat)) := Option.none
  model_count : Option Nat := Option.none

/-- The loop body of `build_graph_instance`:
`e = g.add_edge(edge[0], edge[1]); self.weights[e] = weight`. -/
def addWeightedEdge (gw : GtGraph × PropMap) (entry : (Nat × Nat) × Rat) :
    GtGraph × PropMap :=
  let (g, wm) := gw
  let (g2, e) := g.add_edge entry.1.1 entry.1.2
  (g2, wm.set e entry.2)

/-- Method `GraphToolCooccurenceClusterer.build_graph_instance`: obtains the edge map
from the graph-builder, constructs an undirected graph with one vertex per
label column, creates a fresh edge weight property map, and adds one weighted
edge per edge-map entry.  Stores graph and weight map as instance state and
returns the graph (together with the updated instance). -/
def GraphToolCooccurenceClusterer.build_graph_instance
    (c : GraphToolCooccurenceClusterer) (y : LabelMatrix) :
    Except String (GraphToolCooccurenceClusterer × GtGraph) :=
  match c.graph_builder y with
  | .error err => .error err
  | .ok edge_map =>
    let g : GtGraph := { directed := false, num_vertices := 0, edges := [] }
    let g := g.add_vertex y.n_labels
    let (g, w) := edge_map.foldl addWeightedEdge (g, ([] : PropMap))
    .ok ({ c with weights := some w, coocurence_graph := some g }, g)

/-- The edge property map accumulated by `build_graph_instance`'s loop when
edges `base, base + 1, …` are added for the given edge-map entries: later
assignments sit in front, as `PropMap.set` leaves them. -/
def weightAssignments (base : Nat) : EdgeMap → PropMap
  | [] => []
  | entry :: rest => weightAssignments (base + 1) rest ++ [(base, entry.2)]

/-- Method `GraphToolCooccurenceClusterer.fit_predict`: records the label count,
builds the co-occurrence graph, fits the model holder on the stored graph and
weight map, filters empty communities, records their count, and returns the
filtered list.  The returned clusterer carries the instance attributes as
they stand when the call returns or the error escapes. -/
def GraphToolCooccurenceClusterer.fit_predict {α : Type}
    (c : GraphToolCooccurenceClusterer)
    (solver : SolverCall → Except String FittedState) (X : α)
    (y : LabelMatrix) :
    GraphToolCooccurenceClusterer × Except String (List (List Nat)) :=
  match ({ c with label_count := some y.n_labels } :
      GraphToolCooccurenceClusterer).build_graph_instance y with
  | .error e => ({ c with label_count := some y.n_labels }, .error e)
  | .ok (c1, _g) =>
    match c1.model.fit solver (c1.coocurence_graph.getD
        { directed := false, num_vertices := 0, edges := [] })
        (c1.weights.getD ([] : PropMap)) with
    | .error e => (c1, .error e)
    | .ok m2 =>
      match m2.communities with
      | Option.none => ({ c1 with model := m2 }, .error "AttributeError")
      | some comms =>
        ({ c1 with
            model := m2,
            label_sets :=
              some (comms.filter fun community => community.length > 0),
            model_count :=
              some (comms.filter fun community =>
                community.length > 0).length },
         .ok (comms.filter fun community => community.length > 0))


/-! Concrete objects used by the witness theorems. -/

/-- A 5-sample, 4-label matrix. -/
def exY : LabelMatrix := { n_samples := 5, n_labels := 4 }

/-- An edge map: labels 0,1 co-occur in 2 samples; labels 2,3 in 5. -/
def exEM : EdgeMap := [((0, 1), 2), ((2, 3), 5)]

/-- A graph-builder returning `exEM` for every label matrix. -/
def exBuilder : LabelMatrix → Except String EdgeMap := fun _ => .ok exEM

/-- A graph-builder that always raises. -/
def exFailBuilder : LabelMatrix → Except String EdgeMap :=
  fun _ => .error "builder failure"

/-- An empty graph object. -/
def exGraph : GtGraph := { directed := false, num_vertices := 0, edges := [] }

/-- A flat solver state over 4 vertices with 3 blocks, block 2 empty. -/
def exFlatState : BlockState :=
  { entropyVal := 1, B := 3, blocks := [0, 1, 0, 1], overlap_blocks := ([], []) }

/-- The fitted state wrapping `exFlatState`. -/
def exSt : FittedState := FittedState.flat exFlatState

/-- A solver that succeeds with `exSt` on every call. -/
def exSolverOk : SolverCall → Except String FittedState := fun _ => .ok exSt

/-- A solver that always raises. -/
def exSolverErr : SolverCall → Except String FittedState :=
  fun _ => .error "solver failure"

/-- An unweighted flat non-overlapping model configuration. -/
def exModel : StochasticBlockModel :=
  StochasticBlockModel.init false false false PyVal.none

/-- A weighted nested configuration. -/
def exModelW : StochasticBlockModel :=
  StochasticBlockModel.init true true false (PyVal.str "discrete-poisson")

/-- Model `exModelW` after a successful fit that returned `exSt`. -/
def exFittedW : StochasticBlockModel := { exModelW with _state := some exSt }

/-- A clusterer over `exBuilder` and `exModel`. -/
def exClusterer : GraphToolCooccurenceClusterer :=
  { graph_builder := exBuilder, model := exModel }

/-- A clusterer whose graph-builder always raises. -/
def exFailClusterer : GraphToolCooccurenceClusterer :=
  { graph_builder := exFailBuilder, model := exModel }


/-- Model `exModel` after a successful fit that returned `exSt`. -/
def exFitModel : StochasticBlockModel := { exModel with _state := some exSt }


/-- The graph built by `build_graph_instance` for `exEM` and `exY`. -/
def exBuiltG : GtGraph :=
  { directed := false, num_vertices := 4, edges := [(0, 1), (2, 3)] }

/-- Clusterer `exClusterer` after `fit_predict` recorded the label count and built the
graph for `exEM`. -/
def exBuiltC1 : GraphToolCooccurenceClusterer :=
  { exClusterer with
      label_count := some 4,
      weights := some [(1, 5), (0, 2)],
      coocurence_graph := some exBuiltG }

/-- Clusterer `exClusterer` after a full successful `fit_predict` with `exSolverOk`. -/
def exC2 : GraphToolCooccurenceClusterer :=
  { exBuiltC1 with
      model := exFitModel,
      label_sets := some [[0, 2], [1, 3]],
      model_count := some 2 }

theorem membership_groups_length (mv : List Nat) (B : Nat) :
    (_membership_to_list_of_communities mv B).length = B := by
  unfold _membership_to_list_of_communities
  simp

theorem membership_groups_mem (mv : List Nat) (B b : Nat)
    (hb : b < (_membership_to_list_of_communities mv B).length) (i : Nat) :
    i ∈ (_membership_to_list_of_communities mv B).get ⟨b, hb⟩
      ↔ i < mv.length ∧ mv.getD i 0 = b := by
  have hbB : b < B := by
    rw [membership_groups_length] at hb
    exact hb
  show i ∈ ((List.range B).map fun b =>
      (List.range mv.length).filter fun v => mv.getD v 0 == b).get ⟨b, _⟩
      ↔ _
  rw [List.get_map]
  rw [List.get_range]
  simp [List.mem_filter, List.mem_range, And.comm]

theorem membership_groups_countP (mv : List Nat) (B : Nat)
    (hmem : ∀ b ∈ mv, b < B) (i : Nat) :
    (_membership_to_list_of_communities mv B).countP (fun g => decide (i ∈ g))
      = if i < mv.length then 1 else 0 := by
  unfold _membership_to_list_of_communities
  rw [List.countP_map]
  by_cases hi : i < mv.length
  · rw [if_pos hi]
    have hpq : ∀ b ∈ List.range B,
        ((fun g => decide (i ∈ g)) ∘ fun b =>
          (List.range mv.length).filter fun v => mv.getD v 0 == b) b = true
        ↔ (b == mv.getD i 0) = true := by
      intro b _
      show decide (i ∈ (List.range mv.length).filter
          fun v => mv.getD v 0 == b) = true
        ↔ (b == mv.getD i 0) = true
      simp only [decide_eq_true_eq, beq_iff_eq, List.mem_filter,
        List.mem_range]
      constructor
      · intro h
        exact h.2.symm
      · intro h
        exact ⟨hi, h.symm⟩
    rw [List.countP_congr hpq]
    have hcnt : List.countP (fun b => b == mv.getD i 0) (List.range B)
        = List.count (mv.getD i 0) (List.range B) := rfl
    rw [hcnt]
    have hmi : mv.getD i 0 ∈ mv := by
      rw [List.getD_eq_getElem mv 0 hi]
      exact List.getElem_mem hi
    exact List.count_eq_one_of_mem (List.nodup_range B)
      (List.mem_range.mpr (hmem _ hmi))
  · rw [if_neg hi]
    refine List.countP_eq_zero.mpr ?_
    intro b _
    simp [List.mem_filter, List.mem_range, hi]

theorem foldl_addWeightedEdge (em : EdgeMap) :
    ∀ (g0 : GtGraph) (w0 : PropMap),
      em.foldl addWeightedEdge (g0, w0)
        = ({ g0 with edges := g0.edges ++ em.map Prod.fst },
           weightAssignments g0.edges.length em ++ w0) := by
  induction em with
  | nil =>
    intro g0 w0
    simp [weightAssignments]
  | cons entry rest ih =>
    intro g0 w0
    rw [List.foldl_cons]
    show (rest.foldl addWeightedEdge (addWeightedEdge (g0, w0) entry)) = _
    rw [show addWeightedEdge (g0, w0) entry
          = ({ g0 with edges := g0.edges ++ [entry.1] },
             (g0.edges.length, entry.2) :: w0) from rfl]
    rw [ih]
    refine Prod.ext ?_ ?_
    · simp
    · show weightAssignments (g0.edges ++ [entry.1]).length rest
          ++ ((g0.edges.length, entry.2) :: w0)
        = weightAssignments g0.edges.length (entry :: rest) ++ w0
      rw [List.length_append]
      show weightAssignments (g0.edges.length + 1) rest
          ++ ([(g0.edges.length, entry.2)] ++ w0) = _
      rw [← List.append_assoc]
      rfl

theorem weightAssignments_find_lt (em : EdgeMap) :
    ∀ (base k : Nat), k < base →
      List.find? (fun p => p.1 == k) (weightAssignments base em)
        = Option.none := by
  induction em with
  | nil =>
    intro base k _
    rfl
  | cons entry rest ih =>
    intro base k hk
    show List.find? _ (weightAssignments (base + 1) rest
        ++ [(base, entry.2)]) = Option.none
    rw [List.find?_append, ih (base + 1) k (Nat.lt_succ_of_lt hk)]
    have hne : (base == k) = false := by
      exact beq_false_of_ne (Nat.ne_of_gt hk)
    simp [List.find?, hne]

theorem weightAssignments_find (em : EdgeMap) :
    ∀ (base i : Nat) (h : i < em.length),
      List.find? (fun p => p.1 == base + i) (weightAssignments base em)
        = some (base + i, (em.get ⟨i, h⟩).2) := by
  induction em with
  | nil =>
    intro base i h
    exact absurd h (Nat.not_lt_zero i)
  | cons entry rest ih =>
    intro base i h
    show List.find? _ (weightAssignments (base + 1) rest
        ++ [(base, entry.2)]) = _
    rw [List.find?_append]
    cases i with
    | zero =>
      rw [weightAssignments_find_lt rest (base + 1) (base + 0)
        (by omega)]
      simp [List.find?]
    | succ j =>
      have hj : j < rest.length := Nat.lt_of_succ_lt_succ h
      have : base + (j + 1) = (base + 1) + j := by omega
      rw [this, ih (base + 1) j hj]
      rfl

/-- Reading `PropMap.get` on the weight map built for an edge map starting at edge
index `0` returns the `i`-th entry's weight at edge index `i`. -/
theorem weightAssignments_get (em : EdgeMap) (i : Nat) (h : i < em.length) :
    PropMap.get (weightAssignments 0 em) i = (em.get ⟨i, h⟩).2 := by
  have := weightAssignments_find em 0 i h
  rw [Nat.zero_add] at this
  unfold PropMap.get
  rw [this]

/-- C1: for every graph and weights argument, `StochasticBlockModel.fit`
invokes the solver on exactly one call whose entry point is the
nested-partition solver when the nested flag is true and the flat-partition
solver otherwise, whose degree-correlation and overlap flags are the
configured flags unchanged, and whose extra-state arguments carry the weights
property map together with the weight-model identifier exactly when a
(truthy) weight-model identifier is configured — otherwise no weight
information is passed, regardless of the weight map's contents. -/
theorem fit_dispatch_spec (m : StochasticBlockModel)
    (solver : SolverCall → Except String FittedState) (graph : GtGraph)
    (weights : PropMap) :
    m.fit solver graph weights
      = (solver (m.fitCall graph weights)).map
          (fun st => { m with _state := some st })
    ∧ (m.fitCall graph weights).entry
      = (if m.nested then EntryPoint.minimize_nested_blockmodel_dl
         else EntryPoint.minimize_blockmodel_dl)
    ∧ (m.fitCall graph weights).deg_corr = m.use_degree_correlation
    ∧ (m.fitCall graph weights).overlap = m.allow_overlap
    ∧ (m.fitCall graph weights).graph = graph
    ∧ (m.fitCall graph weights).state_args
      = (if m.weight_model.truthy
         then some { recs := [weights], rec_types := [m.weight_model] }
         else Option.none) := by
  refine ⟨rfl, ?_, ?_, ?_, ?_, ?_⟩ <;>
    unfold StochasticBlockModel.fitCall StochasticBlockModel.model <;>
    by_cases h : m.weight_model.truthy <;>
    simp [h]

/-- C2: on a freshly constructed `StochasticBlockModel` (on which `fit` was
never called) both `entropy()` and `communities()` fail — the fitted-state
field is `None`, so both queries return no value at all. -/
theorem unfitted_model_queries_fail (nested deg_corr overlap : Bool)
    (weight_model : PyVal) :
    (StochasticBlockModel.init nested deg_corr overlap weight_model).entropy
      = Option.none
    ∧ (StochasticBlockModel.init nested deg_corr overlap
        weight_model).communities = Option.none :=
  ⟨rfl, rfl⟩

/-- C6: `fit_predict(X, y)` ignores the feature matrix entirely: any two
feature matrices (even of different types) give identical results and
identical instance state for the same label matrix. -/
theorem fit_predict_ignores_X {α β : Type} (c : GraphToolCooccurenceClusterer)
    (solver : SolverCall → Except String FittedState) (X1 : α) (X2 : β)
    (y : LabelMatrix) :
    c.fit_predict solver X1 y = c.fit_predict solver X2 y := rfl

/-- C8: a successful `fit` leaves the four configuration fields untouched and
replaces only the fitted-state field `_state`; `entropy` and `communities`
are embedded as pure queries because the source methods contain no field
assignment at all. -/
theorem fit_preserves_configuration (m : StochasticBlockModel)
    (solver : SolverCall → Except String FittedState) (graph : GtGraph)
    (weights : PropMap) (m2 : StochasticBlockModel)
    (h : m.fit solver graph weights = .ok m2) :
    m2.nested = m.nested
    ∧ m2.use_degree_correlation = m.use_degree_correlation
    ∧ m2.allow_overlap = m.allow_overlap
    ∧ m2.weight_model = m.weight_model
    ∧ m2 = { m with _state := m2._state } := by
  unfold StochasticBlockModel.fit at h
  cases hs : solver (m.fitCall graph weights) with
  | error e =>
    rw [hs] at h
    exact absurd h (by simp [Except.map])
  | ok st =>
    rw [hs] at h
    simp only [Except.map] at h
    injection h with h2
    subst h2
    exact ⟨rfl, rfl, rfl, rfl, rfl⟩

/-- Witness for C8 at a concrete weighted nested model and a solver that
returns `exSt`. -/
theorem fit_preserves_configuration_witness :
    exModelW.fit exSolverOk exGraph [] = .ok exFittedW
    ∧ (exFittedW.nested = exModelW.nested
       ∧ exFittedW.use_degree_correlation = exModelW.use_degree_correlation
       ∧ exFittedW.allow_overlap = exModelW.allow_overlap
       ∧ exFittedW.weight_model = exModelW.weight_model
       ∧ exFittedW = { exModelW with _state := exFittedW._state }) :=
  ⟨rfl, fit_preserves_configuration exModelW exSolverOk exGraph [] exFittedW
    rfl⟩

/-- C10: `fit` branches on the truthiness of `weight_model`, not on its
presence: for every falsy identifier (`None`, the empty string, or `0`) the
solver call carries no extra-state arguments and is exactly the call an
unconfigured (`None`) weight-model would produce. -/
theorem falsy_weight_model_is_unweighted (m : StochasticBlockModel)
    (graph : GtGraph) (weights : PropMap)
    (h : m.weight_model = PyVal.none ∨ m.weight_model = PyVal.str ""
       ∨ m.weight_model = PyVal.int 0) :
    (m.fitCall graph weights).state_args = Option.none
    ∧ m.fitCall graph weights
      = ({ m with weight_model := PyVal.none }).fitCall graph weights := by
  have ht : m.weight_model.truthy = false := by
    rcases h with h | h | h <;> rw [h] <;> decide
  unfold StochasticBlockModel.fitCall StochasticBlockModel.model
  constructor
  · simp [ht]
  · simp only [ht]
    simp [PyVal.truthy]

/-- Witness for C10 at a model configured with the empty string. -/
theorem falsy_weight_model_is_unweighted_witness :
    ((StochasticBlockModel.init false true false
        (PyVal.str "")).weight_model = PyVal.none
     ∨ (StochasticBlockModel.init false true false
        (PyVal.str "")).weight_model = PyVal.str ""
     ∨ (StochasticBlockModel.init false true false
        (PyVal.str "")).weight_model = PyVal.int 0)
    ∧ (((StochasticBlockModel.init false true false
          (PyVal.str "")).fitCall exGraph []).state_args = Option.none
       ∧ (StochasticBlockModel.init false true false
            (PyVal.str "")).fitCall exGraph []
         = ({ StochasticBlockModel.init false true false (PyVal.str "") with
              weight_model := PyVal.none }).fitCall exGraph []) :=
  ⟨Or.inr (Or.inl rfl),
   falsy_weight_model_is_unweighted _ exGraph [] (Or.inr (Or.inl rfl))⟩

/-- C3: when the graph-builder returns an edge map for `y`,
`build_graph_instance(y)` returns an undirected graph with exactly
`y.shape[1]` vertices and exactly one edge per mapping entry, each edge
connecting the entry's two label indices in order, with the entry's numeric
weight stored for that edge in the edge-weight property map; an empty mapping
therefore yields `L` vertices and zero edges. -/
theorem build_graph_instance_spec (c : GraphToolCooccurenceClusterer)
    (y : LabelMatrix) (em : EdgeMap) (h : c.graph_builder y = .ok em) :
    ∃ c2 g, c.build_graph_instance y = .ok (c2, g)
      ∧ g.directed = false
      ∧ g.num_vertices = y.n_labels
      ∧ g.edges = em.map Prod.fst
      ∧ c2.coocurence_graph = some g
      ∧ ∃ w, c2.weights = some w
        ∧ ∀ (i : Nat) (hi : i < em.length),
            PropMap.get w i = (em.get ⟨i, hi⟩).2 := by
  have hfold := foldl_addWeightedEdge em
    (GtGraph.add_vertex { directed := false, num_vertices := 0, edges := [] }
      y.n_labels) []
  unfold GraphToolCooccurenceClusterer.build_graph_instance
  rw [h]
  simp only [hfold]
  refine ⟨_, _, rfl, rfl, ?_, rfl, rfl, weightAssignments 0 em ++ [], rfl, ?_⟩
  · show ({ directed := false, num_vertices := 0, edges := [] } :
        GtGraph).num_vertices + y.n_labels = y.n_labels
    show 0 + y.n_labels = y.n_labels
    omega
  · intro i hi
    rw [List.append_nil]
    exact weightAssignments_get em i hi

/-- Witness for C3 at the concrete builder returning `exEM` for `exY`. -/
theorem build_graph_instance_spec_witness :
    exClusterer.graph_builder exY = .ok exEM
    ∧ (∃ c2 g, exClusterer.build_graph_instance exY = .ok (c2, g)
        ∧ g.directed = false
        ∧ g.num_vertices = exY.n_labels
        ∧ g.edges = exEM.map Prod.fst
        ∧ c2.coocurence_graph = some g
        ∧ ∃ w, c2.weights = some w
          ∧ ∀ (i : Nat) (hi : i < exEM.length),
              PropMap.get w i = (exEM.get ⟨i, hi⟩).2) :=
  ⟨rfl, build_graph_instance_spec exClusterer exY exEM rfl⟩

/-- C5: for a non-overlapping fit whose solver state assigns each of the `L`
vertices exactly one block id in `0..B-1`, the groups `communities()` returns
before empty-filtering are pairwise disjoint and their union is exactly the
label indices `0..L-1`: every index below `L` lies in exactly one group and
no other index lies in any group. -/
theorem communities_partition (m : StochasticBlockModel) (st : FittedState)
    (bs : BlockState) (L : Nat)
    (hov : m.allow_overlap = false)
    (hst : m._state = some st)
    (hlow : st.lowestLevel m.nested = some bs)
    (hlen : bs.blocks.length = L)
    (hmem : ∀ b ∈ bs.blocks, b < bs.B) :
    ∃ gs, m.communities = some gs
      ∧ ∀ i : Nat,
          gs.countP (fun g => decide (i ∈ g)) = if i < L then 1 else 0 := by
  subst hlen
  refine ⟨_membership_to_list_of_communities bs.blocks bs.B, ?_, ?_⟩
  · unfold StochasticBlockModel.communities
    simp only [hst, hlow, hov]
    simp
  · intro i
    exact membership_groups_countP bs.blocks bs.B hmem i

/-- Witness for C5 at the concrete fitted model `exFitModel`, whose flat
state assigns blocks `[0, 1, 0, 1]` with `B = 3`. -/
theorem communities_partition_witness :
    exFitModel.allow_overlap = false
    ∧ exFitModel._state = some exSt
    ∧ exSt.lowestLevel exFitModel.nested = some exFlatState
    ∧ exFlatState.blocks.length = 4
    ∧ (∀ b ∈ exFlatState.blocks, b < exFlatState.B)
    ∧ (∃ gs, exFitModel.communities = some gs
        ∧ ∀ i : Nat,
            gs.countP (fun g => decide (i ∈ g)) = if i < 4 then 1 else 0) :=
  ⟨rfl, rfl, rfl, rfl, by decide,
   communities_partition exFitModel exSt exFlatState 4 rfl rfl rfl rfl
     (by decide)⟩

/-- C7: on a fitted model, `communities()` reads level 0 of the nested
hierarchy when the nested flag is true and the single flat state otherwise;
in the non-overlap case it produces exactly `B` groups (with `B` the block
count of that level) indexed `0..B-1`, where group `b` holds precisely the
label indices whose block id is `b` — zero-vertex blocks stay as empty
groups, nothing is filtered here. -/
theorem communities_groups_by_block (m : StochasticBlockModel)
    (bs : BlockState)
    (hov : m.allow_overlap = false)
    (hstate : (m.nested = true
        ∧ ∃ rest, m._state = some (FittedState.nested (bs :: rest)))
      ∨ (m.nested = false ∧ m._state = some (FittedState.flat bs))) :
    ∃ gs, m.communities = some gs
      ∧ gs.length = bs.B
      ∧ ∀ (b : Nat) (hb : b < gs.length) (i : Nat),
          i ∈ gs.get ⟨b, hb⟩
            ↔ i < bs.blocks.length ∧ bs.blocks.getD i 0 = b := by
  have hcomm : m.communities
      = some (_membership_to_list_of_communities bs.blocks bs.B) := by
    rcases hstate with ⟨hn, rest, hst⟩ | ⟨hn, hst⟩ <;>
      unfold StochasticBlockModel.communities <;>
      simp only [hst, hn, hov, FittedState.lowestLevel] <;>
      simp
  refine ⟨_, hcomm, membership_groups_length bs.blocks bs.B, ?_⟩
  intro b hb i
  exact membership_groups_mem bs.blocks bs.B b hb i

/-- Witness for C7 at the concrete fitted model `exFitModel` (flat case). -/
theorem communities_groups_by_block_witness :
    exFitModel.allow_overlap = false
    ∧ ((exFitModel.nested = true
        ∧ ∃ rest, exFitModel._state
            = some (FittedState.nested (exFlatState :: rest)))
      ∨ (exFitModel.nested = false
         ∧ exFitModel._state = some (FittedState.flat exFlatState)))
    ∧ (∃ gs, exFitModel.communities = some gs
        ∧ gs.length = exFlatState.B
        ∧ ∀ (b : Nat) (hb : b < gs.length) (i : Nat),
            i ∈ gs.get ⟨b, hb⟩
              ↔ i < exFlatState.blocks.length
                ∧ exFlatState.blocks.getD i 0 = b) :=
  ⟨rfl, Or.inr ⟨rfl, rfl⟩,
   communities_groups_by_block exFitModel exFlatState rfl
     (Or.inr ⟨rfl, rfl⟩)⟩

/-- C4: every successful `fit_predict` returns exactly the non-empty groups
among the communities the model holder produced — empties removed, nothing
else removed, relative order preserved (the result is the `filter` of the raw
list) — every returned group is non-empty, and the recorded `model_count`
(and `label_sets`) match the returned sequence and its length. -/
theorem fit_predict_filters_empty {α : Type}
    (c : GraphToolCooccurenceClusterer)
    (solver : SolverCall → Except String FittedState) (X : α)
    (y : LabelMatrix) (c2 : GraphToolCooccurenceClusterer)
    (res : List (List Nat))
    (h : c.fit_predict solver X y = (c2, .ok res)) :
    ∃ raw, c2.model.communities = some raw
      ∧ res = raw.filter (fun community => community.length > 0)
      ∧ (∀ g ∈ res, 1 ≤ g.length)
      ∧ c2.model_count = some res.length
      ∧ c2.label_sets = some res := by
  unfold GraphToolCooccurenceClusterer.fit_predict at h
  split at h
  · simp at h
  · split at h
    · simp at h
    · split at h
      · simp at h
      · rename_i c1 g heqb m2 heqf comms heqc
        rw [Prod.mk.injEq] at h
        obtain ⟨h1, h2⟩ := h
        injection h2 with h2
        subst h2
        subst h1
        refine ⟨comms, heqc, rfl, ?_, rfl, rfl⟩
        intro grp hgrp
        rw [List.mem_filter] at hgrp
        have hlen := hgrp.2
        simp only [decide_eq_true_eq] at hlen
        omega

/-- Witness for C4 at the concrete clusterer `exClusterer` with the
always-succeeding solver. -/
theorem fit_predict_filters_empty_witness :
    exClusterer.fit_predict exSolverOk () exY = (exC2, .ok [[0, 2], [1, 3]])
    ∧ (∃ raw, exC2.model.communities = some raw
        ∧ [[0, 2], [1, 3]]
            = raw.filter (fun community => community.length > 0)
        ∧ (∀ g ∈ ([[0, 2], [1, 3]] : List (List Nat)), 1 ≤ g.length)
        ∧ exC2.model_count = some ([[0, 2], [1, 3]] : List (List Nat)).length
        ∧ exC2.label_sets = some [[0, 2], [1, 3]]) :=
  ⟨rfl, fit_predict_filters_empty exClusterer exSolverOk () exY exC2
    [[0, 2], [1, 3]] rfl⟩

/-- C9: errors raised by the collaborators during `fit_predict` propagate to
the caller unmodified, with no retry and no partial output.  If the
graph-builder raises, the call returns that very error and the only state
change is the already-recorded label count; if the solver raises after a
successful graph build, the call returns that very error and the output
fields `label_sets` and `model_count` are exactly as before the call. -/
theorem fit_predict_error_propagation {α : Type}
    (c : GraphToolCooccurenceClusterer)
    (solver : SolverCall → Except String FittedState) (X : α)
    (y : LabelMatrix) (e : String) :
    (c.graph_builder y = .error e →
      c.fit_predict solver X y
        = ({ c with label_count := some y.n_labels }, .error e))
    ∧ (∀ (c1 : GraphToolCooccurenceClusterer) (g : GtGraph),
        ({ c with label_count := some y.n_labels } :
            GraphToolCooccurenceClusterer).build_graph_instance y
          = .ok (c1, g) →
        solver (c1.model.fitCall
            (c1.coocurence_graph.getD
              { directed := false, num_vertices := 0, edges := [] })
            (c1.weights.getD ([] : PropMap))) = .error e →
        c.fit_predict solver X y = (c1, .error e)
          ∧ c1.label_sets = c.label_sets
          ∧ c1.model_count = c.model_count) := by
  constructor
  · intro hberr
    have hb : ({ c with label_count := some y.n_labels } :
        GraphToolCooccurenceClusterer).build_graph_instance y = .error e := by
      unfold GraphToolCooccurenceClusterer.build_graph_instance
      rw [show ({ c with label_count := some y.n_labels } :
          GraphToolCooccurenceClusterer).graph_builder y
          = Except.error e from hberr]
    unfold GraphToolCooccurenceClusterer.fit_predict
    rw [hb]
  · intro c1 g hbuild hsolve
    have hfit : c1.model.fit solver
        (c1.coocurence_graph.getD
          { directed := false, num_vertices := 0, edges := [] })
        (c1.weights.getD ([] : PropMap)) = .error e := by
      unfold StochasticBlockModel.fit
      rw [hsolve]
      rfl
    have hstate : c1.label_sets = c.label_sets
        ∧ c1.model_count = c.model_count := by
      have hbuild2 := hbuild
      unfold GraphToolCooccurenceClusterer.build_graph_instance at hbuild2
      split at hbuild2
      · exact absurd hbuild2 (by simp)
      · injection hbuild2 with hpair
        rw [Prod.mk.injEq] at hpair
        obtain ⟨h1, _h2⟩ := hpair
        rw [← h1]
        exact ⟨rfl, rfl⟩
    refine ⟨?_, hstate.1, hstate.2⟩
    unfold GraphToolCooccurenceClusterer.fit_predict
    split
    · rename_i e2 heq
      rw [hbuild] at heq
      simp at heq
    · rename_i c1b gb heq
      rw [hbuild] at heq
      injection heq with heq
      rw [Prod.mk.injEq] at heq
      obtain ⟨hc, hg⟩ := heq
      subst hc
      split
      · rename_i e2 heq2
        rw [hfit] at heq2
        injection heq2 with heq2
        subst heq2
        rfl
      · rename_i m2 heq2
        rw [hfit] at heq2
        simp at heq2

/-- Witness for C9: the graph-builder failure branch at `exFailClusterer`,
and the solver failure branch at `exClusterer` with `exSolverErr`. -/
theorem fit_predict_error_propagation_witness :
    (exFailClusterer.fit_predict exSolverOk () exY
      = ({ exFailClusterer with label_count := some exY.n_labels },
         .error "builder failure"))
    ∧ (exClusterer.fit_predict exSolverErr () exY = (exBuiltC1, .error "solver failure")
       ∧ exBuiltC1.label_sets = exClusterer.label_sets
       ∧ exBuiltC1.model_count = exClusterer.model_count) :=
  ⟨(fit_predict_error_propagation exFailClusterer exSolverOk () exY
      "builder failure").1 rfl,
   (fit_predict_error_propagation exClusterer exSolverErr () exY
      "solver failure").2 exBuiltC1 exBuiltG rfl rfl⟩
